import Mathlib

/-!
Verification development for the pump.fun sniper bot's resilient polling and
position-lifecycle engine.

The development shallowly embeds the JavaScript source:

* `src/src/monitor/index.js` — the position monitor (`monitorTokenPrices`),
  the HTTP discovery loop's per-window signature processing
  (`monitorProgramViaHttp`), and the supervisory restart loop
  (`startTokenMonitor`);
* `src/src/utils/rpc.js` — the endpoint pool (`getHttpConnection`,
  `markEndpointFailed`), the error classifier (`isRateLimitError`) and the
  retry wrapper (`retryRpc`);
* `src/src/config/index.js` — the default profit-target configuration.

JavaScript numbers are modelled as rationals (`ℚ`): every number the claims
touch is produced by comparisons, additions, multiplications and divisions of
decimal literals, where IEEE doubles and rationals agree on the orderings at
issue.  Network calls are modelled by oracles: a price fetch is an
`Option ℚ` (`none` = the guarded call threw and the per-token `catch` ran),
a sell execution is a `SellResult`, and an RPC operation is a function from
the attempt index to `Except String α` (the `String` being the JS error
message).  Timestamps (`lastUpdated`, `buyTime`) and log output are elided:
no claim mentions them.
-/

namespace PumpBot

/-- Outcome of one invocation of the external trade execution
(`trader.sellToken`): either the awaited promise resolves, or it rejects and
the surrounding `try/catch` in `monitorTokenPrices` runs. -/
inductive SellResult where
  | success : SellResult
  | failure : SellResult
deriving DecidableEq, Repr

/-- The external inputs consumed by one monitor tick for one token:
the result of the `trader.getTokenPrice` call (`none` when it throws, which
the per-token `catch` at the bottom of the loop body absorbs) and the outcome
of the sell execution, should one be attempted this tick. -/
structure TickOracle where
  price : Option ℚ
  sell : SellResult
deriving DecidableEq, Repr

/-- The slice of the application configuration read by `monitorTokenPrices`
(src/src/config/index.js).  `profitTarget3..5` / `sellPercentage3..5` also
exist in `loadConfig` but are never read by the monitor, so they do not
appear in the embedding of the monitor's behaviour. -/
structure Config where
  profitTarget1 : ℚ
  profitTarget2 : ℚ
  sellPercentage1 : ℚ
  sellPercentage2 : ℚ
deriving DecidableEq, Repr

/-- Default values from `loadConfig` (src/src/config/index.js lines 30-38)
with no environment overrides: PROFIT_TARGET_1 = 1.3, PROFIT_TARGET_2 = 2.0,
SELL_PERCENTAGE_1 = 15.0, SELL_PERCENTAGE_2 = 50.0. -/
def defaultConfig : Config :=
  { profitTarget1 := 13/10
    profitTarget2 := 2
    sellPercentage1 := 15
    sellPercentage2 := 50 }

/-- The mutable per-position record (`class TokenPosition`,
src/src/monitor/index.js lines 23-39), minus timestamps and the
log-throttling field `lastReportedRatio`, which no claim mentions. -/
structure TokenPosition where
  mintAddress : String
  name : String
  symbol : String
  buyPrice : ℚ
  buyAmountSol : ℚ
  tokenAmount : ℚ
  currentPrice : ℚ
  soldPercentage : ℚ
  status : String
deriving DecidableEq, Repr

/-- Status string written by the first-target branch:
the JS template literal is `Sold ${token.soldPercentage}%`. -/
def soldStatus (p : ℚ) : String :=
  "Sold " ++ toString p ++ "%"

/-- Record of one attempted sell execution: which target branch invoked
`trader.sellToken` and with which token amount.  Emitted whether or not the
sell succeeds (the attempt happens before the outcome is known). -/
structure SellAction where
  tier : ℕ
  amount : ℚ
deriving DecidableEq, Repr

/-- One iteration of the `for (const token of activeTokens)` body of
`monitorTokenPrices` (src/src/monitor/index.js lines 532-630), in real
(non-simulation) mode, for a single token.  Returns the updated token
together with the list of sell attempts made (at most one, by the
if/else-if structure of the source).

Faithful points: tokens with `soldPercentage >= 100` are skipped; the price
fetch failure is absorbed by the per-token catch, leaving the token
untouched for the tick; on a successful price fetch `currentPrice` is
updated before the target checks; the first target sells
`tokenAmount * (sellPercentage1 / 100)` and on success sets
`soldPercentage = sellPercentage1`; the second target (an `else if`) sells
`tokenAmount * ((sellPercentage2 - soldPercentage) / 100)` and on success
sets `soldPercentage = sellPercentage2` and status `Fully Sold`; a sell
failure is caught by the inner try/catch and changes nothing further. -/
def monitorOneToken (cfg : Config) (o : TickOracle) (t : TokenPosition) :
    TokenPosition × List SellAction :=
  if 100 ≤ t.soldPercentage then (t, [])
  else
    match o.price with
    | none => (t, [])
    | some p =>
      let t1 : TokenPosition := { t with currentPrice := p }
      let priceRatio : ℚ := t1.currentPrice / t1.buyPrice
      if t1.soldPercentage < cfg.sellPercentage1 ∧ cfg.profitTarget1 ≤ priceRatio then
        let sellAmount := t1.tokenAmount * (cfg.sellPercentage1 / 100)
        match o.sell with
        | SellResult.success =>
            ({ t1 with soldPercentage := cfg.sellPercentage1
                       status := soldStatus cfg.sellPercentage1 },
             [{ tier := 1, amount := sellAmount }])
        | SellResult.failure => (t1, [{ tier := 1, amount := sellAmount }])
      else if t1.soldPercentage < cfg.sellPercentage2 ∧ cfg.profitTarget2 ≤ priceRatio then
        let remainingPercentage := cfg.sellPercentage2 - t1.soldPercentage
        let sellAmount := t1.tokenAmount * (remainingPercentage / 100)
        match o.sell with
        | SellResult.success =>
            ({ t1 with soldPercentage := cfg.sellPercentage2
                       status := "Fully Sold" },
             [{ tier := 2, amount := sellAmount }])
        | SellResult.failure => (t1, [{ tier := 2, amount := sellAmount }])
      else (t1, [])

/-- One full sweep of `monitorTokenPrices` over the `activeTokens` array,
with one oracle per token.  Per-token errors are caught inside the loop body
(modelled inside `monitorOneToken`), so every token of the array is
processed. -/
def monitorSweep (cfg : Config) (os : List TickOracle) (ts : List TokenPosition) :
    List TokenPosition :=
  List.zipWith (fun t o => (monitorOneToken cfg o t).1) ts os

/-- Iterated monitor ticks on a single position: the `setInterval` loop of
`startPriceMonitoring` observed through the per-token step. -/
def runTicks (cfg : Config) (t : TokenPosition) : List TickOracle → TokenPosition
  | [] => t
  | o :: os => runTicks cfg (monitorOneToken cfg o t).1 os

/-- The ordered profit-tier table actually consulted by the monitor code:
the two (multiplier, cumulative percent) pairs it reads from the config. -/
def profitTiers (cfg : Config) : List (ℚ × ℚ) :=
  [(cfg.profitTarget1, cfg.sellPercentage1), (cfg.profitTarget2, cfg.sellPercentage2)]

/-- Largest cumulative sell percentage in the tier table consulted by the
monitor. -/
def tableMax (cfg : Config) : ℚ :=
  max cfg.sellPercentage1 cfg.sellPercentage2

/-- Walk a tier table in order, returning the index of the first tier whose
cumulative sell percent exceeds `sold` and whose price multiplier is at most
`ratio`. -/
def lowestEligibleTierAux (ratio sold : ℚ) : ℕ → List (ℚ × ℚ) → Option ℕ
  | _, [] => none
  | i, tr :: rest =>
    if sold < tr.2 ∧ tr.1 ≤ ratio then some i
    else lowestEligibleTierAux ratio sold (i + 1) rest

/-- Modelled from the spec: the lowest tier (1-based index into the tier
table) whose price multiplier is met by the given ratio and whose cumulative
sell percent exceeds the given sold percentage. -/
def lowestEligibleTier (cfg : Config) (ratio sold : ℚ) : Option ℕ :=
  lowestEligibleTierAux ratio sold 1 (profitTiers cfg)

/-- The fresh position of the C1 scenario: bought at price 1, nothing sold. -/
def c1Token : TokenPosition :=
  { mintAddress := "Mint1111"
    name := "TestToken"
    symbol := "TT"
    buyPrice := 1
    buyAmountSol := 1/10
    tokenAmount := 1000
    currentPrice := 1
    soldPercentage := 0
    status := "Active" }

/-- The C1 oracle: every tick sees price 5 (ratio 5.0) and every attempted
sell succeeds. -/
def c1Oracle : TickOracle :=
  { price := some 5, sell := SellResult.success }

/-- State of the C1 position after n monitor ticks at ratio 5.0. -/
def c1State (n : ℕ) : TokenPosition :=
  runTicks defaultConfig c1Token (List.replicate n c1Oracle)

/-- The settled state of the C1 scenario once both tiers implemented by the
monitor have fired. -/
def c1Settled : TokenPosition :=
  { mintAddress := "Mint1111", name := "TestToken", symbol := "TT",
    buyPrice := 1, buyAmountSol := 1/10, tokenAmount := 1000,
    currentPrice := 5, soldPercentage := 50, status := "Fully Sold" }

/-! ## RPC resilience layer (src/src/utils/rpc.js) -/

/-- Boolean test that the first character list is an initial segment of the
second. -/
def matchesAt : List Char → List Char → Bool
  | [], _ => true
  | _ :: _, [] => false
  | a :: as, b :: bs => a == b && matchesAt as bs

/-- Boolean test that the needle occurs contiguously somewhere in the
haystack. -/
def hasSublist (needle : List Char) : List Char → Bool
  | [] => needle.isEmpty
  | c :: t => matchesAt needle (c :: t) || hasSublist needle t

/-- JavaScript `hay.includes(needle)` on strings. -/
def strIncludes (hay needle : String) : Bool :=
  hasSublist needle.data hay.data

/-- Classifier `isRateLimitError` (src/src/utils/rpc.js lines 90-99):
substring tests over the error message.  Note the literal list: 429,
"Too Many Requests", "rate limit", "timeout",
"call or parameters have been disabled", 410 and 503 — 502 is absent. -/
def isRateLimitError (errStr : String) : Bool :=
  strIncludes errStr "429" ||
  strIncludes errStr "Too Many Requests" ||
  strIncludes errStr "rate limit" ||
  strIncludes errStr "timeout" ||
  strIncludes errStr "call or parameters have been disabled" ||
  strIncludes errStr "410" ||
  strIncludes errStr "503"

/-- The static HTTP endpoint pool (src/src/utils/rpc.js lines 6-12) with no
`ALCHEMY_RPC_URL` environment entry (the `.filter(Boolean)` drops the
undefined premium slot). -/
def HTTP_RPC_ENDPOINTS : List String :=
  ["https://api.mainnet-beta.solana.com",
   "https://solana-api.projectserum.com",
   "https://rpc.ankr.com/solana",
   "https://solana-mainnet.public.blastapi.io"]

/-- JavaScript `Set.add`: append the element unless already present;
insertion order is preserved (JS sets iterate in insertion order). -/
def insertEndpoint (failed : List String) (e : String) : List String :=
  if failed.contains e then failed else failed ++ [e]

/-- Embedding of `markEndpointFailed` (src/src/utils/rpc.js lines 118-133).
A connection handle is represented by its endpoint URL (the JS code reads
`connection._rpcEndpoint`, falling back to the sentinel
"unknown-endpoint").  After adding the URL to the failed set, if the set's
size reaches `HTTP_RPC_ENDPOINTS.length - 1` the set is reset to hold only
the most recently failed URL.  The length threshold always reads the HTTP
list, so the pool list is passed explicitly. -/
def markEndpointFailed (endpoints : List String) (failed : List String)
    (endpoint : String) : List String :=
  if endpoint = "unknown-endpoint" then failed
  else
    let f := insertEndpoint failed endpoint
    if endpoints.length - 1 ≤ f.length then [endpoint] else f

/-- Embedding of `getHttpConnection` (src/src/utils/rpc.js lines 34-55).
State is the failed set plus the round-robin cursor `httpIndex`; the result
is the chosen endpoint URL (standing in for the `Connection` built on it),
the failed set after the call and the advanced cursor.  When every endpoint
is in the failed set the JS code clears the set and recurses once; with an
empty pool the JS recursion would never terminate, modelled as `none`. -/
def getHttpConnection (endpoints failed : List String) (httpIndex : ℕ) :
    Option String × List String × ℕ :=
  let available := endpoints.filter (fun e => !failed.contains e)
  match available with
  | [] =>
    match endpoints with
    | [] => (none, [], httpIndex)
    | _ :: _ => (endpoints.get? (httpIndex % endpoints.length), [], httpIndex + 1)
  | _ :: _ => (available.get? (httpIndex % available.length), failed, httpIndex + 1)

/-- Embedding of `retryRpc` (src/src/utils/rpc.js lines 141-178).  The
wrapped operation is an oracle from the attempt index to an
`Except String α` (the `String` is the JS error message).  The result is the
final outcome, the list of back-off delays actually waited (in order), and
the failed-endpoint set after the call.  On a retryable error with retries
remaining, the endpoint of the supplied connection (if any) is marked
failed, the current delay is waited, and the call recurses with one fewer
retry and the delay scaled by the factor; otherwise the error is rethrown
unchanged with no delay. -/
def retryRpc {α : Type} (fn : ℕ → Except String α) (retries : ℕ)
    (delayMs factor : ℚ) (connection : Option String)
    (endpoints failed : List String) (attempt : ℕ) :
    Except String α × List ℚ × List String :=
  match fn attempt with
  | Except.ok a => (Except.ok a, [], failed)
  | Except.error err =>
    if isRateLimitError err then
      match retries with
      | 0 => (Except.error err, [], failed)
      | r + 1 =>
        let failed1 := match connection with
          | some url => markEndpointFailed endpoints failed url
          | none => failed
        let res := retryRpc fn r (delayMs * factor) factor connection endpoints failed1 (attempt + 1)
        (res.1, delayMs :: res.2.1, res.2.2)
    else (Except.error err, [], failed)

/-- The recognized options of `retryRpc` with their defaults
(src/src/utils/rpc.js lines 141-147). -/
structure RetryOptions where
  retries : ℕ := 5
  delayMs : ℚ := 500
  factor : ℚ := 2
  description : String := "RPC call"
  connection : Option String := none
deriving DecidableEq, Repr

/-- Every call site of `retryRpc` in the repository, with the literal option
object passed there (defaults filled in).  Dynamic description strings are
represented by a fixed placeholder; no call site passes a `connection`.
Sites, in file order:
src/src/monitor/index.js lines 291, 306, 319, 661, 683, 695, 732, 783;
src/src/trader/index.js lines 37, 62, 82, 132, 156, 176, 205;
src/src/wallet/index.js lines 89, 120, 165, 171. -/
def retryCallSites : List RetryOptions :=
  [{ description := "onProgramAccountChange subscription" },
   { description := "getSignaturesForAddress" },
   { description := "getTransaction" },
   { description := "get latest slot", retries := 10 },
   { description := "get program signatures", retries := 3 },
   { description := "get program accounts efficiently", retries := 3 },
   { description := "get signatures for account <dynamic>", retries := 2 },
   { description := "get transaction details", retries := 3 },
   { description := "Jupiter quote" },
   { description := "Jupiter swap instructions" },
   { description := "buy transaction confirmation" },
   { description := "Jupiter quote for sell" },
   { description := "Jupiter swap instructions for sell" },
   { description := "sell transaction confirmation" },
   { description := "Jupiter price API", retries := 7, delayMs := 300 },
   { description := "get wallet balance", retries := 7 },
   { description := "get token accounts", retries := 5 },
   { description := "request airdrop", retries := 3 },
   { description := "confirm airdrop transaction", retries := 10 }]

/-! ## Discovery loop (src/src/monitor/index.js, `monitorProgramViaHttp`) -/

/-- A fetched signature entry: the transaction identifier and the slot it
landed in (the fields of the objects returned by
`getSignaturesForAddress`). -/
structure SigInfo where
  signature : String
  slot : ℕ
deriving DecidableEq, Repr

/-- Embedding of the per-window signature loop of `monitorProgramViaHttp`
(src/src/monitor/index.js lines 764-816).  `cache` is the
`processedSignatures` set in insertion order; `lastSlot` is
`lastCheckedSlot`.  An entry already in the cache, or whose slot is at or
below the tip marker, is skipped.  Otherwise its signature is appended to
the cache; if the cache then exceeds 100 entries, the oldest (first
inserted) entry is evicted; and the transaction is fetched and inspected —
recorded here as an attempt.  Returns the cache after the window and the
list of attempted signatures in order. -/
def runWindow (lastSlot : ℕ) (cache : List String) :
    List SigInfo → List String × List String
  | [] => (cache, [])
  | s :: rest =>
    if cache.contains s.signature || decide (s.slot ≤ lastSlot) then
      runWindow lastSlot cache rest
    else
      let c1 := cache ++ [s.signature]
      let c2 := if 100 < c1.length then c1.drop 1 else c1
      let r := runWindow lastSlot c2 rest
      (r.1, s.signature :: r.2)

/-- The local state of `monitorProgramViaHttp` (src/src/monitor/index.js
lines 645-655): `let lastCheckedSlot = 0` and
`const processedSignatures = new Set()`, both declared inside the function
body. -/
structure DiscoveryLocals where
  lastCheckedSlot : ℕ
  processedSignatures : List String
deriving DecidableEq, Repr

/-- The locals a fresh invocation of `monitorProgramViaHttp` starts from. -/
def discoveryLocalsInit : DiscoveryLocals :=
  { lastCheckedSlot := 0, processedSignatures := [] }

/-- Embedding of one pass of the supervisory loop in `startTokenMonitor`
(src/src/monitor/index.js lines 64-88) after an error escaped
`monitorProgramViaHttp`: the module-level failed-endpoint set of
src/src/utils/rpc.js survives (it is global state), while the discovery
locals are rebuilt by the fresh `monitorProgramViaHttp(...)` call. -/
def superviseRestart (failed : List String) (_locals : DiscoveryLocals) :
    List String × DiscoveryLocals :=
  (failed, discoveryLocalsInit)

/-! ## Helper lemmas about the monitor tick -/

theorem lowestEligibleTier_eq (cfg : Config) (ratio sold : ℚ) :
    lowestEligibleTier cfg ratio sold =
      if sold < cfg.sellPercentage1 ∧ cfg.profitTarget1 ≤ ratio then some 1
      else if sold < cfg.sellPercentage2 ∧ cfg.profitTarget2 ≤ ratio then some 2
      else none := by
  simp [lowestEligibleTier, profitTiers, lowestEligibleTierAux]

theorem tick_actions (cfg : Config) (o : TickOracle) (t : TokenPosition) (p : ℚ)
    (hp : o.price = some p) (h0 : ¬ 100 ≤ t.soldPercentage) :
    ((monitorOneToken cfg o t).2.map SellAction.tier) =
      (lowestEligibleTier cfg (p / t.buyPrice) t.soldPercentage).toList := by
  rw [lowestEligibleTier_eq]
  by_cases hA : t.soldPercentage < cfg.sellPercentage1 ∧ cfg.profitTarget1 ≤ p / t.buyPrice
  · cases hs : o.sell <;> simp [monitorOneToken, hp, h0, hA, hs]
  · by_cases hB : t.soldPercentage < cfg.sellPercentage2 ∧ cfg.profitTarget2 ≤ p / t.buyPrice
    · cases hs : o.sell <;> simp [monitorOneToken, hp, h0, hA, hB, hs]
    · simp [monitorOneToken, hp, h0, hA, hB]

theorem tick_sold_unchanged_of_failure (cfg : Config) (o : TickOracle) (t : TokenPosition)
    (hf : o.sell = SellResult.failure) :
    (monitorOneToken cfg o t).1.soldPercentage = t.soldPercentage ∧
    (monitorOneToken cfg o t).1.status = t.status := by
  simp only [monitorOneToken]
  split
  · exact ⟨rfl, rfl⟩
  · split
    · exact ⟨rfl, rfl⟩
    · split
      · rw [hf]; exact ⟨rfl, rfl⟩
      · split
        · rw [hf]; exact ⟨rfl, rfl⟩
        · exact ⟨rfl, rfl⟩

theorem tick_sold_mono (cfg : Config) (o : TickOracle) (t : TokenPosition) :
    t.soldPercentage ≤ (monitorOneToken cfg o t).1.soldPercentage := by
  simp only [monitorOneToken]
  split
  · exact le_refl _
  · split
    · exact le_refl _
    · split
      · rename_i h1
        cases o.sell
        · simp; exact le_of_lt h1.1
        · exact le_refl _
      · split
        · rename_i h2
          cases o.sell
          · simp; exact le_of_lt h2.1
          · exact le_refl _
        · exact le_refl _

theorem tick_sold_le (cfg : Config) (o : TickOracle) (t : TokenPosition) :
    (monitorOneToken cfg o t).1.soldPercentage ≤ max t.soldPercentage (tableMax cfg) := by
  simp only [monitorOneToken, tableMax]
  split
  · exact le_max_left _ _
  · split
    · exact le_max_left _ _
    · split
      · cases o.sell
        · simp [le_max_right, le_max_of_le_right, le_max_left]
        · exact le_max_left _ _
      · split
        · cases o.sell
          · simp [le_max_right, le_max_of_le_right, le_max_left]
          · exact le_max_left _ _
        · exact le_max_left _ _

theorem tick_change_imp (cfg : Config) (o : TickOracle) (t : TokenPosition)
    (h : (monitorOneToken cfg o t).1.soldPercentage ≠ t.soldPercentage) :
    o.sell = SellResult.success ∧ (monitorOneToken cfg o t).2 ≠ [] := by
  rcases hs : o.sell with _ | _
  · constructor
    · rfl
    · revert h
      simp only [monitorOneToken]
      split
      · simp
      · split
        · simp
        · split
          · rw [hs]; simp
          · split
            · rw [hs]; simp
            · simp
  · exact absurd (tick_sold_unchanged_of_failure cfg o t hs).1 h

theorem runTicks_sold_mono (cfg : Config) (os : List TickOracle) (t : TokenPosition) :
    t.soldPercentage ≤ (runTicks cfg t os).soldPercentage := by
  induction os generalizing t with
  | nil => exact le_refl _
  | cons o os ih =>
    exact le_trans (tick_sold_mono cfg o t) (ih (monitorOneToken cfg o t).1)

theorem runTicks_sold_le (cfg : Config) (os : List TickOracle) (t : TokenPosition)
    (h : t.soldPercentage ≤ tableMax cfg) :
    (runTicks cfg t os).soldPercentage ≤ tableMax cfg := by
  induction os generalizing t with
  | nil => exact h
  | cons o os ih =>
    refine ih (monitorOneToken cfg o t).1 ?_
    exact le_trans (tick_sold_le cfg o t) (max_le h (le_refl _))

theorem tick_buyPrice (cfg : Config) (o : TickOracle) (t : TokenPosition) :
    (monitorOneToken cfg o t).1.buyPrice = t.buyPrice := by
  simp only [monitorOneToken]
  split
  · rfl
  · split
    · rfl
    · split
      · cases o.sell <;> rfl
      · split
        · cases o.sell <;> rfl
        · rfl

theorem runTicks_append (cfg : Config) (xs ys : List TickOracle) (t : TokenPosition) :
    runTicks cfg t (xs ++ ys) = runTicks cfg (runTicks cfg t xs) ys := by
  induction xs generalizing t with
  | nil => rfl
  | cons x xs ih => simp [runTicks, ih]

theorem runTicks_fixed (cfg : Config) (o : TickOracle) (t : TokenPosition)
    (hfix : (monitorOneToken cfg o t).1 = t) (n : ℕ) :
    runTicks cfg t (List.replicate n o) = t := by
  induction n with
  | zero => rfl
  | succ n ih =>
    rw [List.replicate_succ]
    simp only [runTicks]
    rw [hfix]
    exact ih

theorem c1_two_ticks : c1State 2 = c1Settled := by
  norm_num [c1State, runTicks, List.replicate, monitorOneToken, c1Oracle, c1Token,
    defaultConfig, c1Settled, soldStatus]

theorem c1_settled_fixed : (monitorOneToken defaultConfig c1Oracle c1Settled).1 = c1Settled := by
  norm_num [monitorOneToken, c1Oracle, c1Settled, defaultConfig]

theorem c1State_add_two (n : ℕ) : c1State (2 + n) = c1Settled := by
  have h : List.replicate (2 + n) c1Oracle =
      List.replicate 2 c1Oracle ++ List.replicate n c1Oracle := List.replicate_add 2 n c1Oracle
  rw [c1State, h, runTicks_append]
  rw [show runTicks defaultConfig c1Token (List.replicate 2 c1Oracle) = c1Settled from c1_two_ticks]
  exact runTicks_fixed defaultConfig c1Oracle c1Settled c1_settled_fixed n

/-! ## Claims C1-C4: the position monitor -/

/-- C1, counterexample.  Under the default configuration, with
soldPercentage = 0 and a price ratio that jumps from 1.0 to 5.0 and stays
there, the claim predicts soldPercentage 65 after the third tick (tier 3)
and 85 after the fifth (tier 5).  The code has no third, fourth or fifth
tier: soldPercentage is 50 after the third and fifth ticks. -/
theorem claim_C1_counterexample :
    (c1State 3).soldPercentage = 50 ∧ ¬ (c1State 3).soldPercentage = 65 ∧
    (c1State 5).soldPercentage = 50 ∧ ¬ (c1State 5).soldPercentage = 85 := by
  have h3 : c1State 3 = c1Settled := c1State_add_two 1
  have h5 : c1State 5 = c1Settled := c1State_add_two 3
  rw [h3, h5]
  norm_num [c1Settled]

/-- C1, amended.  With soldPercentage = 0 under the default configuration
and a ratio jumping from 1.0 to 5.0 in one tick, exactly the first tier
(multiplier 1.3, 15%) fires on that tick; the next tick fires the second
tier (multiplier 2.0, cumulative 50%); the monitor implements only these
two tiers, so every subsequent tick fires nothing and soldPercentage stays
at 50 forever (it never reaches 85). -/
theorem claim_C1_amended :
    (monitorOneToken defaultConfig c1Oracle c1Token).2 = [{ tier := 1, amount := 150 }] ∧
    (c1State 1).soldPercentage = 15 ∧
    (c1State 2).soldPercentage = 50 ∧
    ∀ n : ℕ, (c1State (2 + n)).soldPercentage = 50 := by
  refine ⟨?_, ?_, ?_, ?_⟩
  · norm_num [monitorOneToken, c1Oracle, c1Token, defaultConfig]
  · norm_num [c1State, runTicks, List.replicate, monitorOneToken, c1Oracle, c1Token,
      defaultConfig, soldStatus]
  · rw [c1_two_ticks]; norm_num [c1Settled]
  · intro n; rw [c1State_add_two n]; norm_num [c1Settled]

/-- C2.  Over every sequence of monitor ticks, soldPercentage never
decreases and never exceeds the tier table's maximum cumulative percent
(given that it starts within that bound); and in any single tick on any
position, soldPercentage changes only if the tick's sell execution
succeeded and a tier trigger actually fired (a sell was attempted). -/
theorem claim_C2_sold_invariant (cfg : Config) (os : List TickOracle) (t : TokenPosition)
    (h : t.soldPercentage ≤ tableMax cfg) :
    t.soldPercentage ≤ (runTicks cfg t os).soldPercentage ∧
    (runTicks cfg t os).soldPercentage ≤ tableMax cfg ∧
    ∀ o s, (monitorOneToken cfg o s).1.soldPercentage ≠ s.soldPercentage →
      o.sell = SellResult.success ∧ (monitorOneToken cfg o s).2 ≠ [] :=
  ⟨runTicks_sold_mono cfg os t, runTicks_sold_le cfg os t h,
   fun o s => tick_change_imp cfg o s⟩

/-- C2, witness at a concrete input. -/
theorem claim_C2_witness :
    c1Token.soldPercentage ≤ tableMax defaultConfig ∧
    (c1Token.soldPercentage ≤ (runTicks defaultConfig c1Token [c1Oracle]).soldPercentage ∧
     (runTicks defaultConfig c1Token [c1Oracle]).soldPercentage ≤ tableMax defaultConfig ∧
     ∀ o s, (monitorOneToken defaultConfig o s).1.soldPercentage ≠ s.soldPercentage →
       o.sell = SellResult.success ∧ (monitorOneToken defaultConfig o s).2 ≠ []) :=
  ⟨by norm_num [c1Token, tableMax, defaultConfig],
   claim_C2_sold_invariant defaultConfig [c1Oracle] c1Token
     (by norm_num [c1Token, tableMax, defaultConfig])⟩

/-- C3.  In any single monitor tick, at most one sell is actioned per
position, and when one is actioned its tier is the lowest tier whose price
multiplier is met by the tick's price ratio and whose cumulative sell
percent exceeds the position's current soldPercentage. -/
theorem claim_C3_one_lowest_tier (cfg : Config) (o : TickOracle) (t : TokenPosition) :
    (monitorOneToken cfg o t).2.length ≤ 1 ∧
    ∀ a ∈ (monitorOneToken cfg o t).2, ∃ p, o.price = some p ∧
      lowestEligibleTier cfg (p / t.buyPrice) t.soldPercentage = some a.tier := by
  by_cases h0 : 100 ≤ t.soldPercentage
  · simp [monitorOneToken, h0]
  · cases hp : o.price with
    | none => simp [monitorOneToken, h0, hp]
    | some p =>
      have hmap := tick_actions cfg o t p hp h0
      constructor
      · have hlen : (monitorOneToken cfg o t).2.length =
            ((lowestEligibleTier cfg (p / t.buyPrice) t.soldPercentage).toList).length := by
          rw [← hmap, List.length_map]
        rw [hlen]
        cases lowestEligibleTier cfg (p / t.buyPrice) t.soldPercentage <;> simp
      · intro a ha
        refine ⟨p, rfl, ?_⟩
        have : a.tier ∈ (lowestEligibleTier cfg (p / t.buyPrice) t.soldPercentage).toList := by
          rw [← hmap]
          exact List.mem_map_of_mem SellAction.tier ha
        cases hl : lowestEligibleTier cfg (p / t.buyPrice) t.soldPercentage with
        | none => rw [hl] at this; simp at this
        | some i => rw [hl] at this; simp at this; rw [this]

/-- C3, witness at a concrete input. -/
theorem claim_C3_witness :
    ({ tier := 1, amount := 150 } : SellAction) ∈
      (monitorOneToken defaultConfig c1Oracle c1Token).2 ∧
    ∃ p, c1Oracle.price = some p ∧
      lowestEligibleTier defaultConfig (p / c1Token.buyPrice) c1Token.soldPercentage = some 1 :=
  ⟨by norm_num [monitorOneToken, c1Oracle, c1Token, defaultConfig],
   (claim_C3_one_lowest_tier defaultConfig c1Oracle c1Token).2 { tier := 1, amount := 150 }
     (by norm_num [monitorOneToken, c1Oracle, c1Token, defaultConfig])⟩

/-- C4.  If a tier trigger fires but the sell execution fails, the
position's soldPercentage and status are unchanged by the tick; a sell was
indeed attempted; the next tick at the same price attempts exactly the same
tier again; and the sweep over the remaining positions proceeds regardless
(each later token is processed exactly as it would have been). -/
theorem claim_C4_sell_failure (cfg : Config) (o : TickOracle) (t : TokenPosition) (p : ℚ)
    (hp : o.price = some p) (hf : o.sell = SellResult.failure)
    (h0 : ¬ 100 ≤ t.soldPercentage)
    (helig : lowestEligibleTier cfg (p / t.buyPrice) t.soldPercentage ≠ none) :
    (monitorOneToken cfg o t).1.soldPercentage = t.soldPercentage ∧
    (monitorOneToken cfg o t).1.status = t.status ∧
    (monitorOneToken cfg o t).2 ≠ [] ∧
    (∀ o2 : TickOracle, o2.price = some p →
      (monitorOneToken cfg o2 (monitorOneToken cfg o t).1).2.map SellAction.tier =
        (monitorOneToken cfg o t).2.map SellAction.tier) ∧
    ∀ os ts, monitorSweep cfg (o :: os) (t :: ts) =
      (monitorOneToken cfg o t).1 :: monitorSweep cfg os ts := by
  have hsold := (tick_sold_unchanged_of_failure cfg o t hf).1
  have hstat := (tick_sold_unchanged_of_failure cfg o t hf).2
  have hmap := tick_actions cfg o t p hp h0
  refine ⟨hsold, hstat, ?_, ?_, ?_⟩
  · intro hnil
    rw [hnil] at hmap
    cases hl : lowestEligibleTier cfg (p / t.buyPrice) t.soldPercentage with
    | none => exact helig hl
    | some i => rw [hl] at hmap; simp at hmap
  · intro o2 ho2
    have h0' : ¬ 100 ≤ (monitorOneToken cfg o t).1.soldPercentage := by rw [hsold]; exact h0
    have hmap2 := tick_actions cfg o2 (monitorOneToken cfg o t).1 p ho2 h0'
    rw [hmap2, hmap, tick_buyPrice, hsold]
  · intro os ts
    rfl

/-- C4, witness at a concrete input. -/
theorem claim_C4_witness :
    ({ price := some 5, sell := SellResult.failure } : TickOracle).price = some 5 ∧
    ¬ 100 ≤ c1Token.soldPercentage ∧
    lowestEligibleTier defaultConfig (5 / c1Token.buyPrice) c1Token.soldPercentage ≠ none ∧
    ((monitorOneToken defaultConfig { price := some 5, sell := SellResult.failure }
        c1Token).1.soldPercentage = c1Token.soldPercentage ∧
     (monitorOneToken defaultConfig { price := some 5, sell := SellResult.failure }
        c1Token).1.status = c1Token.status ∧
     (monitorOneToken defaultConfig { price := some 5, sell := SellResult.failure }
        c1Token).2 ≠ [] ∧
     (∀ o2 : TickOracle, o2.price = some 5 →
       (monitorOneToken defaultConfig o2
          (monitorOneToken defaultConfig { price := some 5, sell := SellResult.failure }
            c1Token).1).2.map SellAction.tier =
         (monitorOneToken defaultConfig { price := some 5, sell := SellResult.failure }
            c1Token).2.map SellAction.tier) ∧
     ∀ os ts, monitorSweep defaultConfig
         ({ price := some 5, sell := SellResult.failure } :: os) (c1Token :: ts) =
       (monitorOneToken defaultConfig { price := some 5, sell := SellResult.failure }
          c1Token).1 :: monitorSweep defaultConfig os ts) :=
  ⟨rfl, by norm_num [c1Token],
   by rw [lowestEligibleTier_eq]; norm_num [c1Token, defaultConfig]; exact Option.some_ne_none 1,
   claim_C4_sell_failure defaultConfig { price := some 5, sell := SellResult.failure }
     c1Token 5 rfl rfl (by norm_num [c1Token])
     (by rw [lowestEligibleTier_eq]; norm_num [c1Token, defaultConfig]; exact Option.some_ne_none 1)⟩

/-! ## Helper lemmas about the retry wrapper and the endpoint pool -/

theorem retryRpc_conn_none_failed {α : Type} (fn : ℕ → Except String α) :
    ∀ (retries : ℕ) (delayMs factor : ℚ) (endpoints failed : List String) (a : ℕ),
    (retryRpc fn retries delayMs factor none endpoints failed a).2.2 = failed := by
  intro retries
  induction retries with
  | zero =>
    intro delayMs factor endpoints failed a
    rw [retryRpc]
    cases fn a with
    | ok v => rfl
    | error e =>
      by_cases hrl : isRateLimitError e = true
      · simp [hrl]
      · simp [hrl]
  | succ r ih =>
    intro delayMs factor endpoints failed a
    rw [retryRpc]
    cases fn a with
    | ok v => rfl
    | error e =>
      by_cases hrl : isRateLimitError e = true
      · simp only [hrl, if_true]
        simp only [ih]
      · simp [hrl]

theorem retryRpc_exhaust {α : Type} (fn : ℕ → Except String α) (errs : ℕ → String) :
    ∀ (retries : ℕ) (delayMs factor : ℚ) (endpoints failed : List String) (a : ℕ),
    (∀ k, k ≤ retries → fn (a + k) = Except.error (errs (a + k))) →
    (∀ k, k ≤ retries → isRateLimitError (errs (a + k)) = true) →
    retryRpc fn retries delayMs factor none endpoints failed a =
      (Except.error (errs (a + retries)),
       (List.range retries).map (fun k => delayMs * factor ^ k), failed) := by
  intro retries
  induction retries with
  | zero =>
    intro delayMs factor endpoints failed a hfn hrl
    have h0 : fn a = Except.error (errs a) := by
      have := hfn 0 (le_refl 0); simpa using this
    have hrl0 : isRateLimitError (errs a) = true := by
      have := hrl 0 (le_refl 0); simpa using this
    rw [retryRpc, h0]
    simp [hrl0]
  | succ r ih =>
    intro delayMs factor endpoints failed a hfn hrl
    have h0 : fn a = Except.error (errs a) := by
      have := hfn 0 (Nat.zero_le _); simpa using this
    have hrl0 : isRateLimitError (errs a) = true := by
      have := hrl 0 (Nat.zero_le _); simpa using this
    have ihx := ih (delayMs * factor) factor endpoints failed (a + 1)
      (fun k hk => by
        have hthis := hfn (k + 1) (Nat.succ_le_succ hk)
        have he : a + 1 + k = a + (k + 1) := by omega
        rw [he]; exact hthis)
      (fun k hk => by
        have hthis := hrl (k + 1) (Nat.succ_le_succ hk)
        have he : a + 1 + k = a + (k + 1) := by omega
        rw [he]; exact hthis)
    rw [retryRpc, h0]
    simp only [hrl0, if_true, ihx]
    have he : a + 1 + r = a + (r + 1) := by omega
    refine Prod.ext ?_ (Prod.ext ?_ ?_)
    · simp [he]
    · show delayMs :: (List.range r).map (fun k => delayMs * factor * factor ^ k) =
        (List.range (r + 1)).map (fun k => delayMs * factor ^ k)
      rw [List.range_succ_eq_map, List.map_cons, List.map_map]
      congr 1
      · rw [pow_zero, mul_one]
      · apply List.map_congr_left
        intro k _
        simp only [Function.comp_apply, pow_succ]
        ring
    · rfl

theorem endpoints_not_unknown : ∀ e ∈ HTTP_RPC_ENDPOINTS, e ≠ "unknown-endpoint" := by
  decide

theorem endpoints_nodup : HTTP_RPC_ENDPOINTS.Nodup := by
  decide

theorem markEndpointFailed_props (failed : List String) (e : String)
    (he : e ∈ HTTP_RPC_ENDPOINTS) (hnd : failed.Nodup)
    (hsub : ∀ x ∈ failed, x ∈ HTTP_RPC_ENDPOINTS) (hlen : failed.length ≤ 2) :
    (markEndpointFailed HTTP_RPC_ENDPOINTS failed e).Nodup ∧
    (∀ x ∈ markEndpointFailed HTTP_RPC_ENDPOINTS failed e, x ∈ HTTP_RPC_ENDPOINTS) ∧
    (markEndpointFailed HTTP_RPC_ENDPOINTS failed e).length ≤ 2 ∧
    markEndpointFailed HTTP_RPC_ENDPOINTS failed e ≠ [] := by
  have hne : e ≠ "unknown-endpoint" := endpoints_not_unknown e he
  unfold markEndpointFailed insertEndpoint
  rw [if_neg hne]
  by_cases hmem : failed.contains e = true
  · have hmm : e ∈ failed := by simpa using hmem
    have hfne : failed ≠ [] := List.ne_nil_of_mem hmm
    have hL : HTTP_RPC_ENDPOINTS.length = 4 := rfl
    rw [if_pos hmem, if_neg (by omega)]
    exact ⟨hnd, hsub, hlen, hfne⟩
  · rw [if_neg hmem]
    have hnotmem : e ∉ failed := by simpa using hmem
    by_cases hthr : HTTP_RPC_ENDPOINTS.length - 1 ≤ (failed ++ [e]).length
    · rw [if_pos hthr]
      refine ⟨List.nodup_singleton e, ?_, by simp, by simp⟩
      intro x hx
      simp at hx
      rw [hx]; exact he
    · rw [if_neg hthr]
      have hl2 : (failed ++ [e]).length ≤ 2 := by
        simp [HTTP_RPC_ENDPOINTS] at hthr
        simp
        omega
      refine ⟨?_, ?_, hl2, by simp⟩
      · simp [List.nodup_append, hnd, hnotmem]
      · intro x hx
        rcases List.mem_append.1 hx with hx1 | hx2
        · exact hsub x hx1
        · simp at hx2; rw [hx2]; exact he

theorem fold_mark_props (ms : List String) :
    ∀ failed, (∀ m ∈ ms, m ∈ HTTP_RPC_ENDPOINTS) → failed.Nodup →
    (∀ x ∈ failed, x ∈ HTTP_RPC_ENDPOINTS) → failed.length ≤ 2 →
    (ms.foldl (markEndpointFailed HTTP_RPC_ENDPOINTS) failed).Nodup ∧
    (∀ x ∈ ms.foldl (markEndpointFailed HTTP_RPC_ENDPOINTS) failed, x ∈ HTTP_RPC_ENDPOINTS) ∧
    (ms.foldl (markEndpointFailed HTTP_RPC_ENDPOINTS) failed).length ≤ 2 ∧
    ((ms ≠ [] ∨ failed ≠ []) → ms.foldl (markEndpointFailed HTTP_RPC_ENDPOINTS) failed ≠ []) := by
  induction ms with
  | nil =>
    intro failed _ hnd hsub hlen
    refine ⟨hnd, hsub, hlen, ?_⟩
    intro h
    cases h with
    | inl h => exact absurd rfl h
    | inr h => exact h
  | cons m ms ih =>
    intro failed hm hnd hsub hlen
    have hprops := markEndpointFailed_props failed m (hm m (List.mem_cons_self m ms)) hnd hsub hlen
    have hi := ih (markEndpointFailed HTTP_RPC_ENDPOINTS failed m)
      (fun x hx => hm x (List.mem_cons_of_mem m hx)) hprops.1 hprops.2.1 hprops.2.2.1
    exact ⟨hi.1, hi.2.1, hi.2.2.1, fun _ => hi.2.2.2 (Or.inr hprops.2.2.2)⟩

theorem available_nonempty (failed : List String) (hnd : failed.Nodup)
    (hsub : ∀ x ∈ failed, x ∈ HTTP_RPC_ENDPOINTS) (hlen : failed.length ≤ 2) :
    HTTP_RPC_ENDPOINTS.filter (fun e => !failed.contains e) ≠ [] := by
  intro hempty
  have hall : HTTP_RPC_ENDPOINTS ⊆ failed := by
    intro e he
    have hne := List.filter_eq_nil_iff.1 hempty e he
    simpa using hne
  have hle := (endpoints_nodup.subperm hall).length_le
  simp [HTTP_RPC_ENDPOINTS] at hle
  omega

/-! ## Claims C5-C7, C10: retry policy and endpoint pool -/

/-- C5.  An operation that fails with retryable errors on every one of the
maxRetries + 1 attempts makes exactly maxRetries delayed re-attempts with
delays initialDelay * factor^k for k = 0 .. maxRetries - 1, strictly
increasing when factor exceeds 1, and then surfaces the last error to the
caller unchanged. -/
theorem claim_C5_retry_backoff {α : Type} (fn : ℕ → Except String α) (errs : ℕ → String)
    (retries : ℕ) (delayMs factor : ℚ) (endpoints failed : List String)
    (hfn : ∀ k, k ≤ retries → fn k = Except.error (errs k))
    (hrl : ∀ k, k ≤ retries → isRateLimitError (errs k) = true)
    (hd : 0 < delayMs) (hf : 1 < factor) :
    retryRpc fn retries delayMs factor none endpoints failed 0 =
      (Except.error (errs retries),
       (List.range retries).map (fun k => delayMs * factor ^ k), failed) ∧
    ((List.range retries).map (fun k => delayMs * factor ^ k)).length = retries ∧
    ((List.range retries).map (fun k => delayMs * factor ^ k)).Chain' (fun x y => x < y) := by
  refine ⟨?_, by simp, ?_⟩
  · have h := retryRpc_exhaust fn errs retries delayMs factor endpoints failed 0
      (fun k hk => by simpa using hfn k hk) (fun k hk => by simpa using hrl k hk)
    simpa using h
  · rw [List.chain'_map]
    cases retries with
    | zero => exact List.chain'_nil
    | succ m =>
      rw [List.chain'_range_succ]
      intro i _
      have hfp : (0:ℚ) < factor := lt_trans zero_lt_one hf
      have hpos : 0 < delayMs * factor ^ i := mul_pos hd (pow_pos hfp i)
      calc delayMs * factor ^ i = delayMs * factor ^ i * 1 := by ring
        _ < delayMs * factor ^ i * factor := mul_lt_mul_of_pos_left hf hpos
        _ = delayMs * factor ^ (i + 1) := by ring

/-- C5, witness at a concrete input. -/
theorem claim_C5_witness :
    (0:ℚ) < 500 ∧ (1:ℚ) < 2 ∧
    (retryRpc (fun _ => (Except.error "429" : Except String Unit)) 2 500 2 none [] [] 0 =
      (Except.error "429", (List.range 2).map (fun k => (500:ℚ) * 2 ^ k), []) ∧
     ((List.range 2).map (fun k => (500:ℚ) * 2 ^ k)).length = 2 ∧
     ((List.range 2).map (fun k => (500:ℚ) * 2 ^ k)).Chain' (fun x y => x < y)) :=
by
  have h429 : isRateLimitError "429" = true := by decide
  exact ⟨by norm_num, by norm_num,
    claim_C5_retry_backoff (fun _ => Except.error "429") (fun _ => "429") 2 500 2 [] []
      (fun _ _ => rfl) (fun _ _ => h429) (by norm_num) (by norm_num)⟩

/-- C6, counterexample.  The claim includes 502-equivalent gateway errors
among the retryable classes, but the classifier's substring list has no
entry matching 502: an error whose message is "502 Bad Gateway" is
classified non-retryable and is propagated immediately, with no delay and
no retry consumed, even though five retries were available. -/
theorem claim_C6_counterexample :
    isRateLimitError "502 Bad Gateway" = false ∧
    retryRpc (fun _ => (Except.error "502 Bad Gateway" : Except String Unit)) 5 500 2 none
      HTTP_RPC_ENDPOINTS [] 0 = (Except.error "502 Bad Gateway", [], []) :=
  ⟨by decide, rfl⟩

/-- C6, amended.  The retry wrapper classifies as retryable exactly the
errors whose message contains one of: "429", "Too Many Requests",
"rate limit", "timeout", "call or parameters have been disabled", "410" or
"503" — 502-equivalent gateway errors are NOT retryable.  Every
non-retryable error is propagated to the caller immediately: no delay is
waited, no retry is consumed and the failed-endpoint set is untouched. -/
theorem claim_C6_classification {α : Type} (fn : ℕ → Except String α) (msg : String)
    (retries : ℕ) (delayMs factor : ℚ) (connection : Option String)
    (endpoints failed : List String)
    (hmsg : isRateLimitError msg = false) (h0 : fn 0 = Except.error msg) :
    retryRpc fn retries delayMs factor connection endpoints failed 0 =
      (Except.error msg, [], failed) ∧
    isRateLimitError "429" = true ∧
    isRateLimitError "Too Many Requests" = true ∧
    isRateLimitError "rate limit exceeded" = true ∧
    isRateLimitError "connection timeout" = true ∧
    isRateLimitError "410 Gone" = true ∧
    isRateLimitError "503 Service Unavailable" = true ∧
    isRateLimitError "this call or parameters have been disabled" = true ∧
    isRateLimitError "502 Bad Gateway" = false := by
  refine ⟨?_, by decide, by decide, by decide, by decide, by decide, by decide, by decide,
    by decide⟩
  cases connection with
  | none =>
    cases retries with
    | zero => rw [retryRpc, h0]; simp [hmsg]
    | succ r => rw [retryRpc, h0]; simp [hmsg]
  | some url =>
    cases retries with
    | zero => rw [retryRpc, h0]; simp [hmsg]
    | succ r => rw [retryRpc, h0]; simp [hmsg]

/-- C6, witness at a concrete input. -/
theorem claim_C6_witness :
    isRateLimitError "not found" = false ∧
    ((fun _ => (Except.error "not found" : Except String Unit)) 0 = Except.error "not found") ∧
    (retryRpc (fun _ => (Except.error "not found" : Except String Unit)) 5 500 2 none [] [] 0 =
      (Except.error "not found", [], []) ∧
     isRateLimitError "429" = true ∧
     isRateLimitError "Too Many Requests" = true ∧
     isRateLimitError "rate limit exceeded" = true ∧
     isRateLimitError "connection timeout" = true ∧
     isRateLimitError "410 Gone" = true ∧
     isRateLimitError "503 Service Unavailable" = true ∧
     isRateLimitError "this call or parameters have been disabled" = true ∧
     isRateLimitError "502 Bad Gateway" = false) :=
  ⟨by decide, rfl,
   claim_C6_classification (fun _ => Except.error "not found") "not found" 5 500 2 none [] []
     (by decide) rfl⟩

/-- C7, counterexample.  Marking every endpoint of the HTTP pool failed (in
list order) leaves the failed set holding the last two endpoints — the
pruning inside markEndpointFailed prevents the set from ever covering the
pool — and the next nextEndpoint call returns an endpoint WITHOUT resetting:
the failed set afterwards is those same two endpoints, not the empty set
the claim requires. -/
theorem claim_C7_counterexample :
    HTTP_RPC_ENDPOINTS.foldl (markEndpointFailed HTTP_RPC_ENDPOINTS) [] =
      ["https://rpc.ankr.com/solana", "https://solana-mainnet.public.blastapi.io"] ∧
    getHttpConnection HTTP_RPC_ENDPOINTS
        (HTTP_RPC_ENDPOINTS.foldl (markEndpointFailed HTTP_RPC_ENDPOINTS) []) 0 =
      (some "https://api.mainnet-beta.solana.com",
       ["https://rpc.ankr.com/solana", "https://solana-mainnet.public.blastapi.io"], 1) ∧
    getHttpConnection HTTP_RPC_ENDPOINTS
        (HTTP_RPC_ENDPOINTS.foldl (markEndpointFailed HTTP_RPC_ENDPOINTS) []) 0 ≠
      (some "https://api.mainnet-beta.solana.com", [], 1) :=
  ⟨rfl, rfl, by decide⟩

/-- C7, amended.  After any nonempty sequence of markFailed calls on pool
endpoints — in particular after marking every endpoint — the next
nextEndpoint call still returns an endpoint (the pool never deadlocks,
because markEndpointFailed's pruning keeps the failed set at no more than
two of the four endpoints), but no reset happens: the call leaves the
failed set exactly as it was, and that set is nonempty rather than empty. -/
theorem claim_C7_amended (ms : List String) (hne : ms ≠ [])
    (hm : ∀ m ∈ ms, m ∈ HTTP_RPC_ENDPOINTS) (idx : ℕ) :
    ((getHttpConnection HTTP_RPC_ENDPOINTS
        (ms.foldl (markEndpointFailed HTTP_RPC_ENDPOINTS) []) idx).1).isSome = true ∧
    (getHttpConnection HTTP_RPC_ENDPOINTS
        (ms.foldl (markEndpointFailed HTTP_RPC_ENDPOINTS) []) idx).2.1 =
      ms.foldl (markEndpointFailed HTTP_RPC_ENDPOINTS) [] ∧
    ms.foldl (markEndpointFailed HTTP_RPC_ENDPOINTS) [] ≠ [] := by
  have hfold := fold_mark_props ms [] hm List.nodup_nil (by simp) (by simp)
  have hFne : ms.foldl (markEndpointFailed HTTP_RPC_ENDPOINTS) [] ≠ [] :=
    hfold.2.2.2 (Or.inl hne)
  have hav := available_nonempty (ms.foldl (markEndpointFailed HTTP_RPC_ENDPOINTS) [])
    hfold.1 hfold.2.1 hfold.2.2.1
  rcases hava : HTTP_RPC_ENDPOINTS.filter
      (fun e => !(ms.foldl (markEndpointFailed HTTP_RPC_ENDPOINTS) []).contains e) with
    _ | ⟨a, rest⟩
  · exact absurd hava hav
  · have hlt : idx % (a :: rest).length < (a :: rest).length :=
      Nat.mod_lt _ (by simp)
    refine ⟨?_, ?_, hFne⟩
    · simp only [getHttpConnection, hava]
      rw [List.get?_eq_get hlt]
      rfl
    · simp only [getHttpConnection, hava]

/-- C7, witness at a concrete input. -/
theorem claim_C7_witness :
    (["https://rpc.ankr.com/solana"] : List String) ≠ [] ∧
    (∀ m ∈ (["https://rpc.ankr.com/solana"] : List String), m ∈ HTTP_RPC_ENDPOINTS) ∧
    (((getHttpConnection HTTP_RPC_ENDPOINTS
        (["https://rpc.ankr.com/solana"].foldl (markEndpointFailed HTTP_RPC_ENDPOINTS) []) 0).1).isSome = true ∧
     (getHttpConnection HTTP_RPC_ENDPOINTS
        (["https://rpc.ankr.com/solana"].foldl (markEndpointFailed HTTP_RPC_ENDPOINTS) []) 0).2.1 =
       ["https://rpc.ankr.com/solana"].foldl (markEndpointFailed HTTP_RPC_ENDPOINTS) [] ∧
     ["https://rpc.ankr.com/solana"].foldl (markEndpointFailed HTTP_RPC_ENDPOINTS) [] ≠ []) :=
  ⟨by decide, by decide,
   claim_C7_amended ["https://rpc.ankr.com/solana"] (by decide) (by decide) 0⟩

/-- C10.  No call site of the retry wrapper anywhere in the repository
passes a connection (all nineteen option objects leave it at the default
null), and with a null connection the retry wrapper leaves the
failed-endpoint set unchanged on every path — success, retryable retries,
exhaustion or immediate propagation — so the retry path never marks an
endpoint failed, and rotation happens only through the round-robin cursor
in getHttpConnection. -/
theorem claim_C10_no_endpoint_marking {α : Type} (fn : ℕ → Except String α)
    (retries : ℕ) (delayMs factor : ℚ) (endpoints failed : List String) (a : ℕ) :
    (∀ site ∈ retryCallSites, site.connection = none) ∧
    (retryRpc fn retries delayMs factor none endpoints failed a).2.2 = failed :=
  ⟨by decide, retryRpc_conn_none_failed fn retries delayMs factor endpoints failed a⟩

/-- C10, witness at a concrete input. -/
theorem claim_C10_witness :
    ({ description := "Jupiter quote" } : RetryOptions) ∈ retryCallSites ∧
    ({ description := "Jupiter quote" } : RetryOptions).connection = none ∧
    (retryRpc (fun _ => (Except.error "429" : Except String Unit)) 3 500 2 none []
      ["https://rpc.ankr.com/solana"] 0).2.2 = ["https://rpc.ankr.com/solana"] :=
  ⟨by decide,
   (claim_C10_no_endpoint_marking (fun _ => (Except.error "429" : Except String Unit))
      3 500 2 [] ["https://rpc.ankr.com/solana"] 0).1
     { description := "Jupiter quote" } (by decide),
   (claim_C10_no_endpoint_marking (fun _ => (Except.error "429" : Except String Unit))
      3 500 2 [] ["https://rpc.ankr.com/solana"] 0).2⟩

/-! ## Claims C8-C9: discovery-loop dedup and supervisory restart -/


theorem runWindow_cache_nodup (lastSlot : ℕ) :
    ∀ (sigs : List SigInfo) (cache : List String), cache.Nodup →
    (runWindow lastSlot cache sigs).1.Nodup := by
  intro sigs
  induction sigs with
  | nil => intro cache h; exact h
  | cons s rest ih =>
    intro cache h
    rw [runWindow]
    by_cases hc : (cache.contains s.signature || decide (s.slot ≤ lastSlot)) = true
    · rw [if_pos hc]; exact ih cache h
    · rw [if_neg hc]
      simp only [Bool.or_eq_true, not_or, decide_eq_true_eq] at hc
      have hnotmem : s.signature ∉ cache := fun hm => hc.1 (List.elem_iff.mpr hm)
      apply ih
      have hc1 : (cache ++ [s.signature]).Nodup := by
        simp [List.nodup_append, h, hnotmem]
      by_cases hev : 100 < (cache ++ [s.signature]).length
      · rw [if_pos hev]
        exact hc1.sublist (List.drop_sublist 1 _)
      · rw [if_neg hev]; exact hc1

theorem runWindow_struct (lastSlot : ℕ) :
    ∀ (sigs : List SigInfo) (cache : List String),
    sigs.length ≤ 100 →
    ∃ k, k ≤ cache.length ∧
      (k = 0 ∨ k + 100 ≤ cache.length + (runWindow lastSlot cache sigs).2.length) ∧
      (runWindow lastSlot cache sigs).1 = cache.drop k ++ (runWindow lastSlot cache sigs).2 ∧
      (runWindow lastSlot cache sigs).2.length ≤ sigs.length := by
  intro sigs
  induction sigs with
  | nil =>
    intro cache _
    exact ⟨0, Nat.zero_le _, Or.inl rfl, by rw [runWindow]; simp, by rw [runWindow]; simp⟩
  | cons s rest ih =>
    intro cache hlen
    have hrest99 : rest.length ≤ 99 := by simp at hlen; omega
    rw [runWindow]
    by_cases hc : (cache.contains s.signature || decide (s.slot ≤ lastSlot)) = true
    · rw [if_pos hc]
      obtain ⟨k, hk1, hk2, hk3, hk4⟩ := ih cache (by omega)
      exact ⟨k, hk1, hk2, hk3, by simpa using Nat.le_succ_of_le hk4⟩
    · rw [if_neg hc]
      by_cases hev : 100 < (cache ++ [s.signature]).length
      · -- eviction: cache.length ≥ 100
        have hcl : 100 ≤ cache.length := by simp at hev; omega
        simp only [if_pos hev]
        obtain ⟨k', hk1, hk2, hk3, hk4⟩ :=
          ih ((cache ++ [s.signature]).drop 1) (by omega)
        have hd1 : (cache ++ [s.signature]).drop 1 = cache.drop 1 ++ [s.signature] :=
          List.drop_append_of_le_length (by omega)
        have hlc2 : ((cache ++ [s.signature]).drop 1).length = cache.length := by
          simp
        have hk1' : k' ≤ cache.length - 1 := by
          rcases hk2 with h0 | hbud
          · omega
          · rw [hlc2] at hbud; omega
        refine ⟨k' + 1, by omega, ?_, ?_, by simpa using hk4⟩
        · right
          rcases hk2 with h0 | hbud
          · subst h0; rw [List.length_cons]; omega
          · rw [hlc2] at hbud; rw [List.length_cons]; omega
        · rw [hk3, hd1]
          rw [List.drop_append_of_le_length (by simp; omega), List.drop_drop]
          simp [Nat.add_comm]
      · -- no eviction: cache grows by one
        simp only [if_neg hev]
        obtain ⟨k', hk1, hk2, hk3, hk4⟩ := ih (cache ++ [s.signature]) (by omega)
        have hk1' : k' ≤ cache.length := by
          rcases hk2 with h0 | hbud
          · omega
          · simp at hbud; omega
        refine ⟨k', hk1', ?_, ?_, by simpa using hk4⟩
        · rcases hk2 with h0 | hbud
          · exact Or.inl h0
          · right; simp at hbud ⊢; omega
        · rw [hk3, List.drop_append_of_le_length hk1']
          simp



theorem runWindow_complete (lastSlot : ℕ) :
    ∀ (sigs : List SigInfo) (cache : List String) (si : SigInfo),
    si ∈ sigs → lastSlot < si.slot → si.signature ∉ cache →
    si.signature ∈ (runWindow lastSlot cache sigs).2 := by
  intro sigs
  induction sigs with
  | nil => intro cache si h _ _; simp at h
  | cons s rest ih =>
    intro cache si hmem hslot hnc
    rw [runWindow]
    by_cases hc : (cache.contains s.signature || decide (s.slot ≤ lastSlot)) = true
    · rw [if_pos hc]
      rcases List.mem_cons.1 hmem with heq | hmem'
      · exfalso
        subst heq
        simp only [Bool.or_eq_true, decide_eq_true_eq] at hc
        rcases hc with h1 | h2
        · exact hnc (List.elem_iff.mp h1)
        · omega
      · exact ih cache si hmem' hslot hnc
    · rw [if_neg hc]
      simp only
      rcases List.mem_cons.1 hmem with heq | hmem'
      · subst heq
        exact List.mem_cons_self _ _
      · by_cases hc2 : si.signature ∈
          (if 100 < (cache ++ [s.signature]).length
           then (cache ++ [s.signature]).drop 1 else cache ++ [s.signature])
        · have hsub : si.signature ∈ cache ++ [s.signature] := by
            by_cases hev : 100 < (cache ++ [s.signature]).length
            · rw [if_pos hev] at hc2
              exact (List.drop_sublist 1 _).subset hc2
            · rw [if_neg hev] at hc2; exact hc2
          rcases List.mem_append.1 hsub with h1 | h2
          · exact absurd h1 hnc
          · simp at h2
            rw [h2]
            exact List.mem_cons_self _ _
        · exact List.mem_cons_of_mem _ (ih _ si hmem' hslot hc2)

theorem runWindow_provenance (lastSlot : ℕ) :
    ∀ (sigs : List SigInfo) (cache : List String) (a : String),
    a ∈ (runWindow lastSlot cache sigs).2 →
    ∃ si, si ∈ sigs ∧ si.signature = a ∧ lastSlot < si.slot := by
  intro sigs
  induction sigs with
  | nil => intro cache a h; rw [runWindow] at h; simp at h
  | cons s rest ih =>
    intro cache a h
    rw [runWindow] at h
    by_cases hc : (cache.contains s.signature || decide (s.slot ≤ lastSlot)) = true
    · rw [if_pos hc] at h
      obtain ⟨si, h1, h2, h3⟩ := ih cache a h
      exact ⟨si, List.mem_cons_of_mem s h1, h2, h3⟩
    · rw [if_neg hc] at h
      simp only [List.mem_cons] at h
      rcases h with heq | hmem
      · refine ⟨s, List.mem_cons_self s rest, heq.symm, ?_⟩
        simp only [Bool.or_eq_true, not_or, decide_eq_true_eq] at hc
        omega
      · obtain ⟨si, h1, h2, h3⟩ := ih _ a hmem
        exact ⟨si, List.mem_cons_of_mem s h1, h2, h3⟩

theorem runWindow_cache_len (lastSlot : ℕ) :
    ∀ (sigs : List SigInfo) (cache : List String),
    (runWindow lastSlot cache sigs).1.length ≤ max cache.length 100 := by
  intro sigs
  induction sigs with
  | nil => intro cache; rw [runWindow]; exact le_max_left _ _
  | cons s rest ih =>
    intro cache
    rw [runWindow]
    by_cases hc : (cache.contains s.signature || decide (s.slot ≤ lastSlot)) = true
    · rw [if_pos hc]; exact ih cache
    · rw [if_neg hc]
      simp only
      by_cases hev : 100 < (cache ++ [s.signature]).length
      · rw [if_pos hev]
        refine le_trans (ih _) ?_
        have h1 : ((cache ++ [s.signature]).drop 1).length = cache.length := by simp
        rw [h1]
      · rw [if_neg hev]
        refine le_trans (ih _) ?_
        have h1 : (cache ++ [s.signature]).length = cache.length + 1 := by simp
        have h2 : cache.length + 1 ≤ 100 := by omega
        rw [h1]
        exact max_le (le_trans h2 (le_max_right _ _)) (le_max_right _ _)



/-- C8.  Within one polling window (at most 100 fetched entries, far above
the code's limit of 10), each transaction identifier is attempted at most
once — an identifier passing the dedup check is attempted exactly once even
if it appears twice in the fetched list; the cache stays bounded by
max(initial size, 100); the cache evolves by appending at the back and
evicting at the front (the final cache is a suffix of the initial cache
followed by the attempts, i.e. FIFO); and every attempt comes from a
fetched entry whose slot exceeds the previous cycle's tip marker. -/
theorem claim_C8_dedup (lastSlot : ℕ) (cache : List String) (sigs : List SigInfo)
    (hnd : cache.Nodup) (hlen : sigs.length ≤ 100) :
    (runWindow lastSlot cache sigs).2.Nodup ∧
    (∀ si ∈ sigs, lastSlot < si.slot → si.signature ∉ cache →
       (runWindow lastSlot cache sigs).2.count si.signature = 1) ∧
    (runWindow lastSlot cache sigs).1.length ≤ max cache.length 100 ∧
    (runWindow lastSlot cache sigs).1 <:+ cache ++ (runWindow lastSlot cache sigs).2 ∧
    (∀ a ∈ (runWindow lastSlot cache sigs).2,
       ∃ si ∈ sigs, si.signature = a ∧ lastSlot < si.slot) := by
  obtain ⟨k, hk1, _, hk3, _⟩ := runWindow_struct lastSlot sigs cache hlen
  have hcnodup := runWindow_cache_nodup lastSlot sigs cache hnd
  have hsuf : (runWindow lastSlot cache sigs).2 <:+ (runWindow lastSlot cache sigs).1 :=
    ⟨cache.drop k, hk3.symm⟩
  have hattnodup : (runWindow lastSlot cache sigs).2.Nodup :=
    hcnodup.sublist hsuf.sublist
  refine ⟨hattnodup, ?_, runWindow_cache_len lastSlot sigs cache, ?_, ?_⟩
  · intro si hmem hslot hnc
    exact List.count_eq_one_of_mem hattnodup
      (runWindow_complete lastSlot sigs cache si hmem hslot hnc)
  · refine ⟨cache.take k, ?_⟩
    rw [hk3, ← List.append_assoc, List.take_append_drop]
  · intro a ha
    exact runWindow_provenance lastSlot sigs cache a ha

/-- C8, witness at a concrete input: the same signature fetched twice in
one window. -/
theorem claim_C8_witness :
    ([] : List String).Nodup ∧
    ([{ signature := "a", slot := 1 }, { signature := "a", slot := 2 }] : List SigInfo).length ≤ 100 ∧
    ((runWindow 0 [] [{ signature := "a", slot := 1 }, { signature := "a", slot := 2 }]).2.Nodup ∧
     (∀ si ∈ ([{ signature := "a", slot := 1 }, { signature := "a", slot := 2 }] : List SigInfo),
        0 < si.slot → si.signature ∉ ([] : List String) →
        (runWindow 0 [] [{ signature := "a", slot := 1 }, { signature := "a", slot := 2 }]).2.count si.signature = 1) ∧
     (runWindow 0 [] [{ signature := "a", slot := 1 }, { signature := "a", slot := 2 }]).1.length ≤
       max ([] : List String).length 100 ∧
     (runWindow 0 [] [{ signature := "a", slot := 1 }, { signature := "a", slot := 2 }]).1 <:+
       [] ++ (runWindow 0 [] [{ signature := "a", slot := 1 }, { signature := "a", slot := 2 }]).2 ∧
     (∀ a ∈ (runWindow 0 [] [{ signature := "a", slot := 1 }, { signature := "a", slot := 2 }]).2,
        ∃ si ∈ ([{ signature := "a", slot := 1 }, { signature := "a", slot := 2 }] : List SigInfo),
          si.signature = a ∧ 0 < si.slot)) :=
  ⟨List.nodup_nil, by decide,
   claim_C8_dedup 0 [] [{ signature := "a", slot := 1 }, { signature := "a", slot := 2 }]
     List.nodup_nil (by decide)⟩

/-- C9, counterexample.  The claim requires the dedup cache to be preserved
across a supervisory restart; but `processedSignatures` is a local constant
of `monitorProgramViaHttp`, so the restarted loop starts from an empty
cache: after an error with cache ["sigA"], the restarted cache is [], not
["sigA"].  (The failed-endpoint set, module state of rpc.js, is indeed
preserved.) -/
theorem claim_C9_counterexample :
    (superviseRestart ["https://rpc.ankr.com/solana"]
        { lastCheckedSlot := 7, processedSignatures := ["sigA"] }).1 =
      ["https://rpc.ankr.com/solana"] ∧
    (superviseRestart ["https://rpc.ankr.com/solana"]
        { lastCheckedSlot := 7, processedSignatures := ["sigA"] }).2.processedSignatures = [] ∧
    (superviseRestart ["https://rpc.ankr.com/solana"]
        { lastCheckedSlot := 7, processedSignatures := ["sigA"] }).2.processedSignatures ≠
      ["sigA"] :=
  ⟨rfl, rfl, by decide⟩

/-- C9, amended.  When an uncaught error escapes a discovery-loop cycle,
the supervisory loop restarts the discovery loop with the failed-endpoint
set preserved (it is module-level state of rpc.js), but the dedup cache and
tip marker are locals of `monitorProgramViaHttp` and are re-initialized
empty/zero — consequently a signature that was in the pre-error cache is
attempted again when it reappears after the restart. -/
theorem claim_C9_amended (failed : List String) (locals : DiscoveryLocals)
    (s : String) (slot baseline : ℕ) (hslot : baseline < slot)
    (hs : s ∈ locals.processedSignatures) :
    (superviseRestart failed locals).1 = failed ∧
    (superviseRestart failed locals).2 = discoveryLocalsInit ∧
    s ∈ (runWindow baseline (superviseRestart failed locals).2.processedSignatures
          [{ signature := s, slot := slot }]).2 := by
  refine ⟨rfl, rfl, ?_⟩
  have h1 : ¬ slot ≤ baseline := not_le.mpr hslot
  show s ∈ (runWindow baseline [] [{ signature := s, slot := slot }]).2
  rw [runWindow]
  rw [if_neg (by simp [h1])]
  exact List.mem_cons_self _ _

/-- C9, witness at a concrete input. -/
theorem claim_C9_witness :
    (0:ℕ) < 5 ∧ "sigA" ∈ (["sigA"] : List String) ∧
    ((superviseRestart ["u"] { lastCheckedSlot := 9, processedSignatures := ["sigA"] }).1 = ["u"] ∧
     (superviseRestart ["u"] { lastCheckedSlot := 9, processedSignatures := ["sigA"] }).2 =
       discoveryLocalsInit ∧
     "sigA" ∈ (runWindow 0 (superviseRestart ["u"]
         { lastCheckedSlot := 9, processedSignatures := ["sigA"] }).2.processedSignatures
         [{ signature := "sigA", slot := 5 }]).2) :=
  ⟨by decide, by decide,
   claim_C9_amended ["u"] { lastCheckedSlot := 9, processedSignatures := ["sigA"] }
     "sigA" 5 0 (by decide) (by decide)⟩

end PumpBot
